import Mathlib

/-!
A verification development for the resilient field-resolution and interaction
engine of a cross-platform email automation agent.  The Python source is
shallowly embedded: the Playwright page is modelled as a structure of pure
response functions (`Page`), element handles as records of their observable
behaviour, and each Python method as a pure Lean function over that model.
Exceptions that the source catches locally are modelled with `Option`
(`none` = the probe threw or timed out); the one exception that the source
can never catch (the missing `_check_authentication` attribute in the
Outlook provider) is modelled with `Except`.
-/

namespace EmailAgent

/-! ## String utilities

Python's `in` operator on strings (substring test), `str.lower`, and
JavaScript's `String.split(' ')` / `Array.join('.')`, implemented by
structural recursion on character lists so that every use reduces in the
kernel. -/

/-- `startsWithL needle hay` is true when `needle` is an initial segment of
`hay` (both as character lists). -/
def startsWithL : List Char → List Char → Bool
  | [], _ => true
  | _ :: _, [] => false
  | a :: as, b :: bs => a = b && startsWithL as bs

/-- `containsL needle hay`: `needle` occurs contiguously inside `hay`.
This is Python's `needle in hay` on strings. -/
def containsL (needle : List Char) : List Char → Bool
  | [] => startsWithL needle []
  | b :: bs => startsWithL needle (b :: bs) || containsL needle bs

/-- Python `needle in hay` for strings. -/
def pyIn (needle hay : String) : Bool :=
  containsL needle.data hay.data

/-- Python `str.lower` (ASCII case folding, as used by the source). -/
def strLower (s : String) : String :=
  ⟨s.data.map Char.toLower⟩

/-- Python `' '.join(parts)`. -/
def joinSpace : List String → String
  | [] => ""
  | [x] => x
  | x :: xs => x ++ " " ++ joinSpace xs

/-- JavaScript `str.split(c)` on a single character, on character lists. -/
def splitOnChar (c : Char) : List Char → List (List Char)
  | [] => [[]]
  | a :: t =>
    if a = c then [] :: splitOnChar c t
    else
      match splitOnChar c t with
      | [] => [[a]]
      | h :: r => (a :: h) :: r

/-- JavaScript `parts.join('.')` on character lists. -/
def joinDots : List (List Char) → List Char
  | [] => []
  | [x] => x
  | x :: xs => x ++ '.' :: joinDots xs

/-! ## Data model

`ElementDescriptor` is the per-element snapshot produced by the
`page.evaluate` probe in `EnhancedDOMHandler._try_ai_dom_analysis`
(tag name, id, class string, ARIA label, placeholder, truncated text,
role attribute, input type). -/

structure ElementDescriptor where
  tag : String
  id : String
  classes : String
  ariaLabel : String
  placeholder : String
  text : String
  role : String
  typ : String
deriving DecidableEq

/-! ## Heuristic scorer (`EnhancedDOMHandler._ai_field_matching`) -/

/-- The keyword table of `_ai_field_matching` (`field_keywords`). -/
def field_keywords (field_type : String) : List String :=
  if field_type = "compose" then ["compose", "new", "write", "create"]
  else if field_type = "to" then ["to", "recipient", "send to", "email to"]
  else if field_type = "subject" then ["subject", "title", "topic"]
  else if field_type = "body" then ["body", "message", "content", "text", "compose"]
  else if field_type = "send" then ["send", "submit", "deliver"]
  else []

/-- `' '.join([ariaLabel, placeholder, text, id, classes]).lower()`
from `_ai_field_matching`. -/
def all_text (e : ElementDescriptor) : String :=
  strLower (joinSpace [e.ariaLabel, e.placeholder, e.text, e.id, e.classes])

/-- The keyword component of the score: +1 per keyword of the role that
occurs as a substring of `all_text`. -/
def keyword_score (field_type : String) (e : ElementDescriptor) : Nat :=
  (field_keywords field_type).countP (fun kw => pyIn kw (all_text e))

/-- The tag/role component of the score (`# Type-specific scoring` in
`_ai_field_matching`): the `if/elif` chain gives +2 to inputs for
`to`/`subject`, to textareas and divs for `body`, and to elements whose
`role` attribute is `button` for `compose`/`send`. -/
def type_bonus (field_type : String) (e : ElementDescriptor) : Nat :=
  if (field_type = "to" ∨ field_type = "subject") ∧ e.tag = "input" then 2
  else if field_type = "body" ∧ (e.tag = "textarea" ∨ e.tag = "div") then 2
  else if (field_type = "compose" ∨ field_type = "send") ∧ e.role = "button" then 2
  else 0

/-- The total `ai_score` a descriptor receives in `_ai_field_matching`. -/
def ai_score (field_type : String) (e : ElementDescriptor) : Nat :=
  keyword_score field_type e + type_bonus field_type e

/-- Stable insertion of a scored element into a list sorted by score
descending: the element is placed before the first entry whose score is
not greater than its own.  This is the insertion step of the stable
descending sort performed by Python's `candidates.sort(key=..., reverse=True)`. -/
def insDesc (x : ElementDescriptor × Nat) :
    List (ElementDescriptor × Nat) → List (ElementDescriptor × Nat)
  | [] => [x]
  | y :: ys => if x.2 < y.2 then y :: insDesc x ys else x :: y :: ys

/-- Stable sort by score descending, modelling Python's
`list.sort(key=lambda x: x.get('ai_score', 0), reverse=True)`
(CPython's sort is stable, and `reverse=True` preserves the relative
order of elements with equal keys). -/
def sortScoreDesc : List (ElementDescriptor × Nat) → List (ElementDescriptor × Nat)
  | [] => []
  | x :: xs => insDesc x (sortScoreDesc xs)

/-- The candidate list built by the scan loop of `_ai_field_matching`:
each descriptor of the batch is paired with its score, and entries with
score 0 are discarded (`if score > 0`). -/
def scan_candidates (dom : List ElementDescriptor) (field_type : String) :
    List (ElementDescriptor × Nat) :=
  (dom.map (fun e => (e, ai_score field_type e))).filter (fun p => 0 < p.2)

/-- `EnhancedDOMHandler._ai_field_matching`: score the batch, discard
score-0 descriptors, sort by score descending (stable), keep the top 3. -/
def ai_field_matching (dom : List ElementDescriptor) (field_type : String) :
    List (ElementDescriptor × Nat) :=
  (sortScoreDesc (scan_candidates dom field_type)).take 3

/-! ## The automation surface

The Playwright page is modelled as a structure of pure response functions.
`waitForSelector sel t = none` means the probe timed out or threw (the
source catches these with a bare `except: continue`); `some el` means a
live handle was returned, whose `is_visible()` call either throws
(`visThrows`) or reports `visible`. -/

structure Elem where
  visThrows : Bool
  visible : Bool
deriving DecidableEq

/-- A nested `input`/`textarea`/`div[contenteditable]` descendant found by
`_try_visual_detection`, with the attributes that the in-page script of
`_get_element_selector` reads (`evalThrows` models the `element.evaluate`
call throwing). -/
structure NElem where
  evalThrows : Bool
  id : String
  ariaLabel : String
  placeholder : String
  className : String
  tagName : String
deriving DecidableEq

/-- An element returned by the `query_selector_all(':has-text(...)')`
probe of `_try_visual_detection`: its `is_visible()` behaviour, and the
result of `element.query_selector('input, textarea, div[contenteditable]')`
(`nestedThrows` models that call throwing). -/
structure VElem where
  visThrows : Bool
  visible : Bool
  nestedThrows : Bool
  nested : Option NElem

/-- One attempt of `_click_with_retry`: the outcome of
`wait_for_selector(selector, timeout=5000)` (`none` = it threw) and
whether the subsequent `element.click()` throws. -/
structure ClickAttempt where
  waited : Option Elem
  clickThrows : Bool

/-- One attempt of `_fill_field_with_retry`: the outcome of
`wait_for_selector(selector, timeout=3000)` and, for each of the three
write methods (`element.fill`, `element.type`, in-page `.value` write),
the value read back afterwards (`none` = the method or its read-back
threw). -/
structure FillAttempt where
  waited : Option Elem
  mFill : Option String
  mType : Option String
  mEval : Option String

/-- The pure model of the browser page and its behaviour over the whole
session.  `launchOk`/`gotoOk`/`loadOk` model whether browser launch,
navigation and the network-idle wait raise. -/
structure Page where
  launchOk : Bool
  gotoOk : Bool
  loadOk : Bool
  waitForSelector : String → Nat → Option Elem
  evalDom : Option (List ElementDescriptor)
  visualProbe : String → Option (List VElem)
  pageClickOk : String → Bool
  clickEnv : String → Nat → ClickAttempt
  fillEnv : String → Nat → FillAttempt

/-- The shared probe pattern of the selector tiers:
`wait_for_selector(selector, timeout)` followed by
`if element and await element.is_visible(): return selector`, with any
exception swallowed. -/
def probe (page : Page) (timeoutMs : Nat) (sel : String) : Option String :=
  match page.waitForSelector sel timeoutMs with
  | none => none
  | some el => if el.visThrows then none else if el.visible then some sel else none

/-! ## Selector tables (from `enhanced_dom_handler.py`) -/

/-- `selectors_map` of `_try_service_specific_selectors`:
`selectors_map.get(service, {}).get(field_type, [])`. -/
def selectors_map (service field_type : String) : List String :=
  if service = "gmail" then
    if field_type = "compose" then
      ["div[role=\"button\"][gh=\"cm\"]", "button[aria-label*=\"Compose\"]",
       "div:has-text(\"Compose\")", ".T-I.T-I-KE.L3"]
    else if field_type = "to" then
      ["input[aria-label*=\"To\"]", "textarea[name=\"to\"]", "input[name=\"to\"]",
       "div[aria-label*=\"To\"] input"]
    else if field_type = "subject" then
      ["input[aria-label*=\"Subject\"]", "input[name=\"subjectbox\"]",
       "input[placeholder*=\"Subject\"]"]
    else if field_type = "body" then
      ["div[aria-label*=\"Message body\"]", "div[role=\"textbox\"]",
       "textarea[aria-label*=\"Message body\"]", "div[contenteditable=\"true\"]"]
    else if field_type = "send" then
      ["div[role=\"button\"][aria-label*=\"Send\"]", "button:has-text(\"Send\")",
       "div[data-tooltip*=\"Send\"]"]
    else []
  else if service = "outlook" then
    if field_type = "compose" then
      ["button[aria-label*=\"New message\"]", "button:has-text(\"New message\")",
       "div[aria-label*=\"Compose\"]"]
    else if field_type = "to" then
      ["input[aria-label*=\"To\"]", "div[aria-label*=\"To\"] input",
       "input[placeholder*=\"Enter names\"]"]
    else if field_type = "subject" then
      ["input[aria-label*=\"Add a subject\"]", "input[placeholder*=\"Add a subject\"]"]
    else if field_type = "body" then
      ["div[aria-label*=\"Message body\"]", "div[role=\"textbox\"]",
       "div[contenteditable=\"true\"]"]
    else if field_type = "send" then
      ["button[aria-label*=\"Send\"]", "button:has-text(\"Send\")"]
    else []
  else []

/-- `semantic_selectors` of `_try_semantic_selectors`. -/
def semantic_selectors (field_type : String) : List String :=
  if field_type = "compose" then
    ["[role=\"button\"]:has-text(\"Compose\")", "[role=\"button\"]:has-text(\"New\")",
     "[aria-label*=\"compose\" i]", "[aria-label*=\"new message\" i]"]
  else if field_type = "to" then
    ["input[aria-label*=\"to\" i]", "input[placeholder*=\"to\" i]",
     "input[name*=\"to\" i]", "[aria-label*=\"recipient\" i] input"]
  else if field_type = "subject" then
    ["input[aria-label*=\"subject\" i]", "input[placeholder*=\"subject\" i]",
     "input[name*=\"subject\" i]"]
  else if field_type = "body" then
    ["[aria-label*=\"message\" i][role=\"textbox\"]", "[aria-label*=\"body\" i]",
     "div[contenteditable=\"true\"]", "textarea[aria-label*=\"message\" i]"]
  else if field_type = "send" then
    ["[role=\"button\"]:has-text(\"Send\")", "[aria-label*=\"send\" i]",
     "button:has-text(\"Send\")"]
  else []

/-- `visual_patterns` of `_try_visual_detection` (each pattern carries its
surrounding double quotes, as in the source). -/
def visual_patterns (field_type : String) : List String :=
  if field_type = "compose" then ["\"Compose\"", "\"New message\"", "\"Write\""]
  else if field_type = "to" then ["\"To:\"", "\"Recipients\"", "\"Send to\""]
  else if field_type = "subject" then ["\"Subject:\"", "\"Subject\""]
  else if field_type = "body" then ["\"Message\"", "\"Type your message\""]
  else if field_type = "send" then ["\"Send\"", "\"Send message\""]
  else []

/-- `auth_indicators` of `handle_authentication_challenge`
(`auth_indicators.get(service, auth_indicators['gmail'])`). -/
def auth_indicators (service : String) : List String :=
  if service = "outlook" then
    ["input[type=\"email\"]", "input[type=\"password\"]", "div:has-text(\"Sign in\")",
     "button:has-text(\"Sign in\")"]
  else
    ["input[type=\"email\"]", "input[type=\"password\"]", "div:has-text(\"Sign in\")",
     "div:has-text(\"Choose an account\")"]

/-! ## Resolution tiers (`EnhancedDOMHandler.find_email_field`) -/

/-- Strategy 1: `_try_service_specific_selectors` — walk the per-service
selector list, returning the first selector whose element is present and
visible within 2000 ms. -/
def try_service_specific_selectors (page : Page) (field_type service : String) :
    Option String :=
  (selectors_map service field_type).findSome? (probe page 2000)

/-- Strategy 2: `_try_semantic_selectors` — same per-locator contract over
the semantic/ARIA selector list. -/
def try_semantic_selectors (page : Page) (field_type : String) : Option String :=
  (semantic_selectors field_type).findSome? (probe page 2000)

/-- `_generate_selector_from_candidate`: build the candidate selector list
from the descriptor's truthy attributes (id, then aria-label, then
placeholder, then tag+role) and return the first that resolves to a live
element within 500 ms (`if element: return selector`, no visibility
check; per-selector exceptions swallowed). -/
def generate_selector_from_candidate (page : Page) (c : ElementDescriptor) :
    Option String :=
  let sels :=
    (if c.id ≠ "" then ["#" ++ c.id] else []) ++
    (if c.ariaLabel ≠ "" then ["[aria-label=\"" ++ c.ariaLabel ++ "\"]"] else []) ++
    (if c.placeholder ≠ "" then ["[placeholder=\"" ++ c.placeholder ++ "\"]"] else []) ++
    (if c.role ≠ "" then [c.tag ++ "[role=\"" ++ c.role ++ "\"]"] else [])
  sels.findSome? (fun sel =>
    match page.waitForSelector sel 500 with
    | some _ => some sel
    | none => none)

/-- Strategy 3: `_try_ai_dom_analysis` — capture the batch snapshot
(`none` = the `page.evaluate` probe threw, which the outer
`except Exception` swallows), rank it with `_ai_field_matching`, and for
each retained candidate probe the synthesized selector (1000 ms wait,
visibility check, per-candidate exceptions swallowed). -/
def try_ai_dom_analysis (page : Page) (field_type : String) : Option String :=
  match page.evalDom with
  | none => none
  | some dom =>
    (ai_field_matching dom field_type).findSome? (fun c =>
      match generate_selector_from_candidate page c.1 with
      | some sel => probe page 1000 sel
      | none => none)

/-- `_get_element_selector`: the in-page script returning the first of
id → aria-label → placeholder → class list (joined with dots) → lowercased
tag name; `none` when the `evaluate` call throws. -/
def get_element_selector (ne : NElem) : Option String :=
  if ne.evalThrows then none
  else some (
    if ne.id ≠ "" then "#" ++ ne.id
    else if ne.ariaLabel ≠ "" then "[aria-label=\"" ++ ne.ariaLabel ++ "\"]"
    else if ne.placeholder ≠ "" then "[placeholder=\"" ++ ne.placeholder ++ "\"]"
    else if ne.className ≠ "" then
      ⟨'.' :: joinDots (splitOnChar ' ' ne.className.data)⟩
    else strLower ne.tagName)

/-- The element loop of `_try_visual_detection` for one pattern: walk the
elements matched by the `:has-text` probe; an exception from
`is_visible()` or the nested `query_selector` aborts the whole pattern
(the `except` sits outside the element loop).  For `compose`/`send` a
visible match returns the pattern selector itself; for the other roles a
visible match is searched for a nested input whose synthesized selector
(when available) is returned. -/
def scanElements (field_type sel : String) : List VElem → Option String
  | [] => none
  | el :: rest =>
    if el.visThrows then none
    else if el.visible then
      if field_type = "compose" ∨ field_type = "send" then some sel
      else if el.nestedThrows then none
      else match el.nested with
        | some ne =>
          match get_element_selector ne with
          | some s => some s
          | none => scanElements field_type sel rest
        | none => scanElements field_type sel rest
    else scanElements field_type sel rest

/-- The pattern loop of `_try_visual_detection` over an explicit pattern
list: each pattern's probe may throw (`none`), which is swallowed and the
loop continues with the next pattern. -/
def visualLoop (page : Page) (field_type : String) : List String → Option String
  | [] => none
  | pattern :: rest =>
    let sel := ":has-text(" ++ pattern ++ ")"
    match
      (match page.visualProbe sel with
       | none => none
       | some els => scanElements field_type sel els)
    with
    | some s => some s
    | none => visualLoop page field_type rest

/-- Strategy 4: `_try_visual_detection` over the role's pattern table. -/
def try_visual_detection (page : Page) (field_type : String) : Option String :=
  visualLoop page field_type (visual_patterns field_type)

/-- The four strategy tiers, in the order `find_email_field` tries them. -/
inductive Tier where
  | serviceSpecific
  | semantic
  | heuristic
  | visual
deriving DecidableEq

/-- `EnhancedDOMHandler.find_email_field`: try the four strategies in
order, returning the first hit, `none` when all fail. -/
def find_email_field (page : Page) (field_type service : String) : Option String :=
  match try_service_specific_selectors page field_type service with
  | some s => some s
  | none =>
    match try_semantic_selectors page field_type with
    | some s => some s
    | none =>
      match try_ai_dom_analysis page field_type with
      | some s => some s
      | none => try_visual_detection page field_type

/-- The tiers a `find_email_field` call actually runs, in order. -/
def find_email_field_tiers (page : Page) (field_type service : String) : List Tier :=
  match try_service_specific_selectors page field_type service with
  | some _ => [Tier.serviceSpecific]
  | none =>
    match try_semantic_selectors page field_type with
    | some _ => [Tier.serviceSpecific, Tier.semantic]
    | none =>
      match try_ai_dom_analysis page field_type with
      | some _ => [Tier.serviceSpecific, Tier.semantic, Tier.heuristic]
      | none => [Tier.serviceSpecific, Tier.semantic, Tier.heuristic, Tier.visual]

/-- `handle_authentication_challenge`: walk the per-service indicator
list with the standard 2000 ms probe; a visible indicator means a login
wall, and the method returns `False` (after `_handle_auth_gracefully`,
which only logs and sleeps); otherwise `True`. -/
def handle_authentication_challenge (page : Page) (service : String) : Bool :=
  match (auth_indicators service).findSome? (probe page 2000) with
  | some _ => false
  | none => true

/-! ## Interaction executor (`_click_with_retry`, `_fill_field_with_retry`) -/

/-- The fill verification of both providers:
`if value in filled_value or filled_value in value`. -/
def looseCheck (value readback : String) : Bool :=
  pyIn value readback || pyIn readback value

/-- Whether one write method's outcome passes verification: the method
and its read-back completed (`some readback`) and the loose check holds. -/
def methodPasses (value : String) (m : Option String) : Bool :=
  match m with
  | some readback => looseCheck value readback
  | none => false

/-- The write-method loop inside one fill attempt: try the methods in
order, returning at the first whose read-back passes verification;
exceptions (`none` outcomes) are swallowed and the next method is tried.
Returns the outcome and the number of methods actually tried. -/
def tryMethodsTrace (value : String) : List (Option String) → Bool × Nat
  | [] => (false, 0)
  | m :: rest =>
    if methodPasses value m then (true, 1)
    else
      let (b, n) := tryMethodsTrace value rest
      (b, n + 1)

/-- The ordered method outcomes of one fill attempt:
`element.fill(value)`, `element.type(value, delay=50)`, in-page
`.value = value` write. -/
def fillMethodsOf (fa : FillAttempt) : List (Option String) :=
  [fa.mFill, fa.mType, fa.mEval]

/-- Classification of one click attempt: `element` resolved, visible, and
`click()` succeeded. -/
def clickAttemptOk (a : ClickAttempt) : Bool :=
  match a.waited with
  | none => false
  | some el => !el.visThrows && el.visible && !a.clickThrows

/-- Whether one click attempt raised an exception (timeout of the wait, a
throwing `is_visible()`, or a throwing `click()`); the source backs off
1000 ms after an exception unless it was the last attempt. -/
def clickAttemptExc (a : ClickAttempt) : Bool :=
  match a.waited with
  | none => true
  | some el => el.visThrows || (el.visible && a.clickThrows)

/-- Whether one fill attempt raised an exception before reaching the
method loop (wait timeout or throwing `is_visible()`). -/
def fillAttemptExc (fa : FillAttempt) : Bool :=
  match fa.waited with
  | none => true
  | some el => el.visThrows

/-- Whether one fill attempt found the element and reached a passing
write method. -/
def fillAttemptOk (value : String) (fa : FillAttempt) : Bool :=
  match fa.waited with
  | none => false
  | some el => !el.visThrows && el.visible && (tryMethodsTrace value (fillMethodsOf fa)).1

/-- Whether one fill attempt found the element visible (so the method
loop runs at all). -/
def fillAttemptVisible (fa : FillAttempt) : Bool :=
  match fa.waited with
  | none => false
  | some el => !el.visThrows && el.visible

/-- `GmailProvider._click_with_retry`, attempt `i` with `n` attempts
remaining.  Returns (success, attempts made, backoff waits taken as
(attempt index, milliseconds) pairs).  A successful wait+visible+click
returns `True`; an invisible element just moves to the next attempt; an
exception backs off 1000 ms unless this was the last attempt. -/
def clickGo (env : Nat → ClickAttempt) (i : Nat) : Nat → Bool × Nat × List (Nat × Nat)
  | 0 => (false, 0, [])
  | n + 1 =>
    let a := env i
    if clickAttemptOk a then (true, 1, [])
    else if clickAttemptExc a then
      let (b, c, bs) := clickGo env (i + 1) n
      (b, c + 1, if n = 0 then bs else (i, 1000) :: bs)
    else
      let (b, c, bs) := clickGo env (i + 1) n
      (b, c + 1, bs)

/-- `GmailProvider._click_with_retry` with its `max_retries` bound
(default 3): after the loop, `return False`. -/
def click_with_retry (env : Nat → ClickAttempt) (maxRetries : Nat := 3) :
    Bool × Nat × List (Nat × Nat) :=
  clickGo env 0 maxRetries

/-- `GmailProvider._fill_field_with_retry`, attempt `i` with `n`
remaining: a visible element whose method loop passes returns `True`; a
visible element whose method loop fails falls through to the next attempt
(no early return in the Gmail version); an exception backs off 1000 ms
unless last. -/
def gmailFillGo (env : Nat → FillAttempt) (value : String) (i : Nat) :
    Nat → Bool × Nat × List (Nat × Nat)
  | 0 => (false, 0, [])
  | n + 1 =>
    let fa := env i
    if fillAttemptOk value fa then (true, 1, [])
    else if fillAttemptExc fa then
      let (b, c, bs) := gmailFillGo env value (i + 1) n
      (b, c + 1, if n = 0 then bs else (i, 1000) :: bs)
    else
      let (b, c, bs) := gmailFillGo env value (i + 1) n
      (b, c + 1, bs)

/-- `GmailProvider._fill_field_with_retry` with its bound. -/
def gmail_fill_field_with_retry (env : Nat → FillAttempt) (value : String)
    (maxRetries : Nat := 3) : Bool × Nat × List (Nat × Nat) :=
  gmailFillGo env value 0 maxRetries

/-- `OutlookProvider._fill_field_with_retry`, attempt `i` with `n`
remaining: identical to the Gmail version except that a visible element
is terminal — when its method loop fails the source logs
"Could not verify ... was filled properly" and returns `False`
immediately, without consuming the remaining attempts. -/
def outlookFillGo (env : Nat → FillAttempt) (value : String) (i : Nat) :
    Nat → Bool × Nat × List (Nat × Nat)
  | 0 => (false, 0, [])
  | n + 1 =>
    let fa := env i
    if fillAttemptVisible fa then
      ((tryMethodsTrace value (fillMethodsOf fa)).1, 1, [])
    else if fillAttemptExc fa then
      let (b, c, bs) := outlookFillGo env value (i + 1) n
      (b, c + 1, if n = 0 then bs else (i, 1000) :: bs)
    else
      let (b, c, bs) := outlookFillGo env value (i + 1) n
      (b, c + 1, bs)

/-- `OutlookProvider._fill_field_with_retry` with its bound. -/
def outlook_fill_field_with_retry (env : Nat → FillAttempt) (value : String)
    (maxRetries : Nat := 3) : Bool × Nat × List (Nat × Nat) :=
  outlookFillGo env value 0 maxRetries

/-! ## Provider flows (`providers/gmail.py`, `providers/outlook.py`)

A `send_email` run is modelled as its boolean return value plus a trace of
the externally meaningful events: the authentication check, each
resolution tier actually invoked, clicks, fill attempts, and the
demo-mode simulation. -/

inductive Ev where
  | authCheck
  | tier (t : Tier) (field_type : String)
  | clicked (sel : String)
  | clickFailed (sel : String)
  | fillTried (field_type : String) (ok : Bool)
  | attrError
  | mock
deriving DecidableEq

/-- The tier-invocation events of one `find_email_field` call. -/
def resolveEvs (page : Page) (field_type service : String) : List Ev :=
  (find_email_field_tiers page field_type service).map (fun t => Ev.tier t field_type)

/-- One field of `GmailProvider._fill_email_fields_enhanced`: resolve the
role, and when a selector was found run the fill (whose boolean outcome
is only logged, never returned). -/
def gmail_fill_one (page : Page) (field_type value : String) : List Ev :=
  resolveEvs page field_type "gmail" ++
  match find_email_field page field_type "gmail" with
  | some sel =>
    [Ev.fillTried field_type (gmail_fill_field_with_retry (page.fillEnv sel) value 3).1]
  | none => []

/-- `GmailProvider.send_email`.  Any exception escaping the main `try`
(browser launch, navigation, the network-idle wait) runs the demo-mode
simulation and returns `False`; every other path — including the
demo-mode fallbacks for an authentication wall, an unresolved compose
button, or a failed compose click — returns `True`. -/
def gmail_send_email (page : Page) (toAddr subject body : String) : Bool × List Ev :=
  if page.launchOk = false then (false, [Ev.mock])
  else if page.gotoOk = false then (false, [Ev.mock])
  else if page.loadOk = false then (false, [Ev.mock])
  else if handle_authentication_challenge page "gmail" = false then
    (true, [Ev.authCheck, Ev.mock])
  else
    let composeEvs := resolveEvs page "compose" "gmail"
    match find_email_field page "compose" "gmail" with
    | none => (true, Ev.authCheck :: composeEvs ++ [Ev.mock])
    | some sel =>
      if (click_with_retry (page.clickEnv sel) 3).1 = false then
        (true, Ev.authCheck :: composeEvs ++ [Ev.clickFailed sel, Ev.mock])
      else
        (true, Ev.authCheck :: composeEvs ++ [Ev.clicked sel]
          ++ gmail_fill_one page "to" toAddr
          ++ gmail_fill_one page "subject" subject
          ++ gmail_fill_one page "body" body)

/-- Python exceptions that can escape to a provider's top-level handler. -/
inductive PyExc where
  | attributeError
  | surfaceError
deriving DecidableEq

/-- `self.dom_handler._check_authentication()` as called by
`OutlookProvider.send_email`: `EnhancedDOMHandler` defines no method or
attribute of that name (its only authentication entry point is
`handle_authentication_challenge`), so in Python the attribute lookup
raises `AttributeError` unconditionally. -/
def check_authentication : Except PyExc Bool :=
  Except.error PyExc.attributeError

/-- The fallback compose selectors of `OutlookProvider.send_email`. -/
def outlook_fallback_selectors : List String :=
  ["button[aria-label*=\"New mail\"]", "button:has-text(\"New mail\")",
   "div[role=\"button\"]:has-text(\"New\")", "[data-testid=\"new-mail-button\"]"]

/-- One field of `OutlookProvider._fill_email_fields_enhanced`. -/
def outlook_fill_one (page : Page) (field_type value : String) : List Ev :=
  resolveEvs page field_type "outlook" ++
  match find_email_field page field_type "outlook" with
  | some sel =>
    [Ev.fillTried field_type (outlook_fill_field_with_retry (page.fillEnv sel) value 3).1]
  | none => []

/-- The three fills of `OutlookProvider._fill_email_fields_enhanced`. -/
def outlook_fills (page : Page) (toAddr subject body : String) : List Ev :=
  outlook_fill_one page "to" toAddr ++ outlook_fill_one page "subject" subject
    ++ outlook_fill_one page "body" body

/-- The body of `OutlookProvider.send_email`'s `try` block, including the
code after the `_check_authentication()` call (lines 46-81) — which is
unreachable, because `check_authentication` always raises.  In the
(dead) continuation: a resolved compose selector is clicked directly with
`page.click` (an exception there escapes); otherwise the fallback
selector loop swallows per-selector errors; the fills run either way and
the block returns `True`. -/
def outlook_auto (page : Page) (toAddr subject body : String) :
    Except PyExc Bool × List Ev :=
  if page.launchOk = false then (Except.error PyExc.surfaceError, [])
  else if page.gotoOk = false then (Except.error PyExc.surfaceError, [])
  else if page.loadOk = false then (Except.error PyExc.surfaceError, [])
  else
    match check_authentication with
    | Except.error e => (Except.error e, [])
    | Except.ok _authRequired =>
      let composeEvs := resolveEvs page "compose" "outlook"
      match find_email_field page "compose" "outlook" with
      | some sel =>
        if page.pageClickOk sel then
          (Except.ok true,
           composeEvs ++ [Ev.clicked sel] ++ outlook_fills page toAddr subject body)
        else (Except.error PyExc.surfaceError, composeEvs)
      | none =>
        let fb := outlook_fallback_selectors.findSome? (fun s =>
          match page.waitForSelector s 3000 with
          | some _ => if page.pageClickOk s then some s else none
          | none => none)
        (Except.ok true,
         composeEvs ++ (match fb with | some s => [Ev.clicked s] | none => [])
           ++ outlook_fills page toAddr subject body)

/-- `OutlookProvider.send_email`: the `try` body's result, with the
`except` handler mapping any escaped exception to the demo-mode
simulation and `return False`. -/
def outlook_send_email (page : Page) (toAddr subject body : String) : Bool × List Ev :=
  match outlook_auto page toAddr subject body with
  | (Except.ok r, evs) => (r, evs)
  | (Except.error _, evs) => (false, evs ++ [Ev.mock])

/-! ## Shared agent and step log (`api_server.py`, `agent.py`, `logger.py`) -/

/-- `StepLogger.log`: appends to the mutable `steps` list; the list is
created once in `StepLogger.__init__` and never cleared. -/
def step_logger_log (steps : List String) (message : String) : List String :=
  steps ++ [message]

/-- The log entries `CrossPlatformAgent.execute_instruction` appends to
the agent's (single, shared) `StepLogger` during one request.  Only the
first, unconditionally emitted line
(`self.logger.log(f"Received instruction: {instruction}")`) is modelled;
the later lines depend on parsing and provider behaviour and only add
further appends to the same shared list. -/
def execute_instruction_log (steps : List String) (instruction : String) :
    List String :=
  step_logger_log steps ("Received instruction: " ++ instruction)

/-- The module-global `_agent_instance` of `api_server.py`, holding the
reused `CrossPlatformAgent` (whose `__init__` creates the one
`StepLogger` shared by both providers).  The server state is the agent's
accumulated step list, or `none` before the first request. -/
def get_agent (st : Option (List String)) : List String × Option (List String) :=
  match st with
  | none => ([], some [])
  | some steps => (steps, some steps)

/-- One synchronous `/send-email` request: fetch the shared agent, run
`execute_instruction` (which appends to the shared log), and answer with
`logs=agent.logger.get_log()` — the agent's entire accumulated log. -/
def handle_request (st : Option (List String)) (instruction : String) :
    List String × Option (List String) :=
  let (steps, _) := get_agent st
  let steps2 := execute_instruction_log steps instruction
  (steps2, some steps2)

/-! ## Claim-side reference definitions

These definitions follow the specification's words rather than the
source; each is compared against the corresponding source-derived
definition in the theorems below. -/

/-- The waterfall contract as the specification states it: the result of
scanning an ordered list of tier outcomes is the first tier's hit, and
the number of tiers attempted is the number of leading misses plus one
for the succeeding tier (or all of them when every tier misses). -/
def firstHit : List (Option String) → Option String × Nat
  | [] => (none, 0)
  | none :: rest =>
    let (r, n) := firstHit rest
    (r, n + 1)
  | some s :: _ => (some s, 1)

/-- The selector synthesis order as the claim states it for the visual
tier: identifier → ARIA label → placeholder → tag name (no class-list
step). -/
def get_element_selector_claimed (ne : NElem) : Option String :=
  if ne.evalThrows then none
  else some (
    if ne.id ≠ "" then "#" ++ ne.id
    else if ne.ariaLabel ≠ "" then "[aria-label=\"" ++ ne.ariaLabel ++ "\"]"
    else if ne.placeholder ≠ "" then "[placeholder=\"" ++ ne.placeholder ++ "\"]"
    else strLower ne.tagName)

/-- The selector synthesis order as amended: identifier → ARIA label →
placeholder → class list (dot-joined) → tag name. -/
def get_element_selector_amended (ne : NElem) : Option String :=
  if ne.evalThrows then none
  else some (
    if ne.id ≠ "" then "#" ++ ne.id
    else if ne.ariaLabel ≠ "" then "[aria-label=\"" ++ ne.ariaLabel ++ "\"]"
    else if ne.placeholder ≠ "" then "[placeholder=\"" ++ ne.placeholder ++ "\"]"
    else if ne.className ≠ "" then
      ⟨'.' :: joinDots (splitOnChar ' ' ne.className.data)⟩
    else strLower ne.tagName)

/-- The structural bonus as the claim states it: +2 for inputs on
`to`/`subject`, for textarea or *content-editable* elements on `body`
(the extra `isContentEditable` argument supplies the fact the captured
descriptor does not record), and for button-role elements on
`compose`/`send`. -/
def type_bonus_claimed (field_type : String) (e : ElementDescriptor)
    (isContentEditable : Bool) : Nat :=
  if (field_type = "to" ∨ field_type = "subject") ∧ e.tag = "input" then 2
  else if field_type = "body" ∧ (e.tag = "textarea" ∨ isContentEditable = true) then 2
  else if (field_type = "compose" ∨ field_type = "send") ∧ e.role = "button" then 2
  else 0

/-- The per-descriptor score as the claim states it. -/
def ai_score_claimed (field_type : String) (e : ElementDescriptor)
    (isContentEditable : Bool) : Nat :=
  keyword_score field_type e + type_bonus_claimed field_type e isContentEditable

/-! ## Auxiliary definitions used by the theorems -/

/-- The ordered tier outcomes a `find_email_field` call scans. -/
def tierOutcomes (page : Page) (field_type service : String) : List (Option String) :=
  [try_service_specific_selectors page field_type service,
   try_semantic_selectors page field_type,
   try_ai_dom_analysis page field_type,
   try_visual_detection page field_type]

/-- The fixed tier order. -/
def tierOrder : List Tier :=
  [Tier.serviceSpecific, Tier.semantic, Tier.heuristic, Tier.visual]

/-- Recognizes resolution-tier events in a trace. -/
def isTierEv : Ev → Bool
  | Ev.tier _ _ => true
  | _ => false

/-- Recognizes interaction events (clicks and fill attempts) in a trace. -/
def isFillOrClickEv : Ev → Bool
  | Ev.fillTried _ _ => true
  | Ev.clicked _ => true
  | _ => false

/-- A live, visible element handle. -/
def elVis : Elem := ⟨false, true⟩

/-- A concrete page sitting on a login wall: the `input[type="email"]`
indicator resolves to a visible element, everything else times out. -/
def pgAuth : Page :=
  ⟨true, true, true,
   fun sel _ => if sel = "input[type=\"email\"]" then some ⟨false, true⟩ else none,
   some [], fun _ => none, fun _ => true,
   fun _ _ => ⟨none, false⟩, fun _ _ => ⟨none, none, none, none⟩⟩

/-- A captured button-role `div` whose text contains "message": the
snapshot selector `div[role="button"]` captures it and it is not
content-editable. -/
def dBtn : ElementDescriptor := ⟨"div", "", "", "", "", "message", "button", ""⟩

/-- A nested descendant with no id/aria-label/placeholder but a class
list: the source synthesizes a class selector for it, the claim's order
would synthesize the tag name. -/
def neCls : NElem := ⟨false, "", "", "", "boX input2", "INPUT"⟩

/-- A nested descendant with an id. -/
def neWit : NElem := ⟨false, "idX", "", "", "", ""⟩

/-- A visible visual-tier match with `neWit` as its nested input. -/
def elWit : VElem := ⟨false, true, false, some neWit⟩

/-- A fill environment whose every attempt finds the element visible but
whose write methods all throw. -/
def fenvTerm : Nat → FillAttempt := fun _ => ⟨some ⟨false, true⟩, none, none, none⟩

/-- A fill environment whose first attempt times out and whose second
finds the element visible with a passing direct write. -/
def fenvWit : Nat → FillAttempt := fun i =>
  if i = 0 then ⟨none, none, none, none⟩
  else ⟨some ⟨false, true⟩, some "val", none, none⟩

/-! ## Helper lemmas: the stable descending sort -/

theorem insDesc_perm (x : ElementDescriptor × Nat) (l : List (ElementDescriptor × Nat)) :
    (insDesc x l).Perm (x :: l) := by
  induction l with
  | nil => simp [insDesc]
  | cons y ys ih =>
    by_cases h : x.2 < y.2
    · simp only [insDesc, if_pos h]
      exact (ih.cons y).trans (List.Perm.swap x y ys)
    · simp [insDesc, if_neg h]

theorem sortScoreDesc_perm (l : List (ElementDescriptor × Nat)) :
    (sortScoreDesc l).Perm l := by
  induction l with
  | nil => simp [sortScoreDesc]
  | cons x xs ih =>
    exact (insDesc_perm x (sortScoreDesc xs)).trans (ih.cons x)

theorem mem_insDesc {y x : ElementDescriptor × Nat} {l : List (ElementDescriptor × Nat)} :
    y ∈ insDesc x l ↔ y = x ∨ y ∈ l := by
  rw [(insDesc_perm x l).mem_iff, List.mem_cons]

theorem insDesc_pairwise {x : ElementDescriptor × Nat} {l : List (ElementDescriptor × Nat)}
    (h : l.Pairwise (fun a b => b.2 ≤ a.2)) :
    (insDesc x l).Pairwise (fun a b => b.2 ≤ a.2) := by
  induction l with
  | nil => simp [insDesc]
  | cons y ys ih =>
    rw [List.pairwise_cons] at h
    by_cases hlt : x.2 < y.2
    · simp only [insDesc, if_pos hlt]
      rw [List.pairwise_cons]
      refine ⟨fun z hz => ?_, ih h.2⟩
      rcases mem_insDesc.1 hz with hz | hz
      · exact hz ▸ Nat.le_of_lt hlt
      · exact h.1 z hz
    · simp only [insDesc, if_neg hlt]
      rw [List.pairwise_cons]
      refine ⟨fun z hz => ?_, List.pairwise_cons.2 h⟩
      rcases List.mem_cons.1 hz with hz | hz
      · exact hz ▸ Nat.le_of_not_lt hlt
      · exact Nat.le_trans (h.1 z hz) (Nat.le_of_not_lt hlt)

theorem sortScoreDesc_pairwise (l : List (ElementDescriptor × Nat)) :
    (sortScoreDesc l).Pairwise (fun a b => b.2 ≤ a.2) := by
  induction l with
  | nil => simp [sortScoreDesc]
  | cons x xs ih => exact insDesc_pairwise ih

theorem insDesc_filter_ne {x : ElementDescriptor × Nat} {c : Nat}
    (l : List (ElementDescriptor × Nat)) (h : x.2 ≠ c) :
    (insDesc x l).filter (fun p => p.2 == c) = l.filter (fun p => p.2 == c) := by
  have hx : (x.2 == c) = false := by simpa using h
  induction l with
  | nil => simp [insDesc, hx]
  | cons y ys ih =>
    by_cases hlt : x.2 < y.2
    · cases hy : (y.2 == c) <;>
        simp [insDesc, if_pos hlt, List.filter_cons, hy, ih]
    · simp [insDesc, if_neg hlt, List.filter_cons, hx]

theorem insDesc_filter_eq {x : ElementDescriptor × Nat} {c : Nat}
    (l : List (ElementDescriptor × Nat)) (h : x.2 = c) :
    (insDesc x l).filter (fun p => p.2 == c) = x :: l.filter (fun p => p.2 == c) := by
  have hx : (x.2 == c) = true := by simpa using h
  induction l with
  | nil => simp [insDesc, hx]
  | cons y ys ih =>
    by_cases hlt : x.2 < y.2
    · have hy : (y.2 == c) = false := by
        have : y.2 ≠ c := by omega
        simpa using this
      simp [insDesc, if_pos hlt, List.filter_cons, hy, ih]
    · simp [insDesc, if_neg hlt, List.filter_cons, hx]

theorem sortScoreDesc_filter (l : List (ElementDescriptor × Nat)) (c : Nat) :
    (sortScoreDesc l).filter (fun p => p.2 == c) = l.filter (fun p => p.2 == c) := by
  induction l with
  | nil => simp [sortScoreDesc]
  | cons x xs ih =>
    by_cases h : x.2 = c
    · have hx : (x.2 == c) = true := by simpa using h
      rw [sortScoreDesc, insDesc_filter_eq _ h, ih, List.filter_cons, if_pos hx]
    · have hx : (x.2 == c) = false := by simpa using h
      rw [sortScoreDesc, insDesc_filter_ne _ h, ih, List.filter_cons]
      simp [hx]

/-! ## Helper lemmas: strings and the method loop -/

theorem pyIn_empty_needle (s : String) : pyIn "" s = true := by
  show containsL "".data s.data = true
  cases s.data with
  | nil => rfl
  | cons a t => rfl

theorem looseCheck_empty (readback : String) : looseCheck "" readback = true := by
  simp [looseCheck, pyIn_empty_needle]

theorem tryMethodsTrace_spec (value : String) (ms : List (Option String)) :
    (tryMethodsTrace value ms).1 = ms.any (methodPasses value) ∧
    (tryMethodsTrace value ms).2 = min (ms.findIdx (methodPasses value) + 1) ms.length := by
  induction ms with
  | nil => simp [tryMethodsTrace]
  | cons m rest ih =>
    rcases htr : tryMethodsTrace value rest with ⟨b, n⟩
    rw [htr] at ih
    cases hm : methodPasses value m with
    | true => simp [tryMethodsTrace, hm, List.findIdx_cons]
    | false =>
      simp only [tryMethodsTrace, hm, Bool.false_eq_true, if_false, htr,
        List.any_cons, Bool.false_or, List.findIdx_cons, cond_false, List.length_cons]
      refine ⟨ih.1, ?_⟩
      have h2 := ih.2
      simp only at h2
      omega

/-! ## Helper lemmas: the retry loops -/

theorem clickAttemptOk_not_exc {a : ClickAttempt} (h : clickAttemptOk a = true) :
    clickAttemptExc a = false := by
  rcases a with ⟨w, ct⟩
  cases w with
  | none => simp [clickAttemptOk] at h
  | some el =>
    rcases el with ⟨vt, vis⟩
    simp [clickAttemptOk] at h
    simp [clickAttemptExc, h.1.1, h.2]

theorem clickGo_char (env : Nat → ClickAttempt) :
    ∀ n i,
      ((clickGo env i n).1 = true ↔ ∃ k, k < n ∧ clickAttemptOk (env (i + k)) = true) ∧
      ((clickGo env i n).1 = false → (clickGo env i n).2.1 = n) ∧
      (∀ j d, (j, d) ∈ (clickGo env i n).2.2 →
        d = 1000 ∧ ∃ k, j = i + k ∧ k + 1 < n ∧ clickAttemptExc (env (i + k)) = true) ∧
      (∀ k, k + 1 < n → clickAttemptExc (env (i + k)) = true →
        (∀ j, j ≤ k → clickAttemptOk (env (i + j)) = false) →
        (i + k, 1000) ∈ (clickGo env i n).2.2) := by
  intro n
  induction n with
  | zero =>
    intro i
    refine ⟨by simp [clickGo], by simp [clickGo], by simp [clickGo], ?_⟩
    intro k hk
    omega
  | succ n ih =>
    intro i
    have hadd : ∀ m : Nat, i + (m + 1) = (i + 1) + m := fun m => by omega
    rcases hgo : clickGo env (i + 1) n with ⟨b, rest⟩
    rcases rest with ⟨c, bs⟩
    have ihi := ih (i + 1)
    rw [hgo] at ihi
    by_cases hok : clickAttemptOk (env i) = true
    · have hres : clickGo env i (n + 1) = (true, 1, []) := by
        simp [clickGo, hok]
      rw [hres]
      refine ⟨?_, by simp, by simp, ?_⟩
      · simp only [true_iff]
        exact ⟨0, by omega, by simpa using hok⟩
      · intro k _ _ hall
        have h0 := hall 0 (Nat.zero_le k)
        simp only [Nat.add_zero] at h0
        rw [hok] at h0
        exact absurd h0 (by simp)
    · have hok' : clickAttemptOk (env i) = false := by
        cases hv : clickAttemptOk (env i)
        · rfl
        · exact absurd hv hok
      by_cases hexc : clickAttemptExc (env i) = true
      · have hres : clickGo env i (n + 1) =
            (b, c + 1, if n = 0 then bs else (i, 1000) :: bs) := by
          simp [clickGo, hok', hexc, hgo]
        rw [hres]
        refine ⟨?_, ?_, ?_, ?_⟩
        · constructor
          · intro hb
            rcases ihi.1.mp hb with ⟨k, hk, hkok⟩
            exact ⟨k + 1, by omega, by rw [hadd k]; exact hkok⟩
          · rintro ⟨k, hk, hkok⟩
            cases k with
            | zero => rw [Nat.add_zero] at hkok; exact absurd hkok hok
            | succ k' =>
              refine ihi.1.mpr ⟨k', by omega, ?_⟩
              rw [← hadd k']
              exact hkok
        · intro hb
          have := ihi.2.1 hb
          simp only at this ⊢
          omega
        · intro j d hmem
          by_cases hn : n = 0
          · rw [if_pos hn] at hmem
            rcases ihi.2.2.1 j d hmem with ⟨hd, k, hj, hk, hke⟩
            exact ⟨hd, k + 1, by omega, by omega, by rw [hadd k]; exact hke⟩
          · rw [if_neg hn] at hmem
            rcases List.mem_cons.1 hmem with heq | hmem'
            · have hj : j = i := by
                have := congrArg Prod.fst heq
                simpa using this
              have hd : d = 1000 := by
                have := congrArg Prod.snd heq
                simpa using this
              exact ⟨hd, 0, by omega, by omega, by simpa [Nat.add_zero, hj] using hexc⟩
            · rcases ihi.2.2.1 j d hmem' with ⟨hd, k, hj, hk, hke⟩
              exact ⟨hd, k + 1, by omega, by omega, by rw [hadd k]; exact hke⟩
        · intro k hk hke hall
          have hn : n ≠ 0 := by omega
          rw [if_neg hn]
          cases k with
          | zero =>
            simp only [Nat.add_zero]
            exact List.mem_cons_self _ _
          | succ k' =>
            refine List.mem_cons_of_mem _ ?_
            have hke' : clickAttemptExc (env ((i + 1) + k')) = true := by
              rw [← hadd k']
              exact hke
            have hall' : ∀ j, j ≤ k' → clickAttemptOk (env ((i + 1) + j)) = false := by
              intro j hj
              rw [← hadd j]
              exact hall (j + 1) (by omega)
            have := ihi.2.2.2 k' (by omega) hke' hall'
            rw [← hadd k'] at this
            exact this
      · have hexc' : clickAttemptExc (env i) = false := by
          cases hv : clickAttemptExc (env i)
          · rfl
          · exact absurd hv hexc
        have hres : clickGo env i (n + 1) = (b, c + 1, bs) := by
          simp [clickGo, hok', hexc', hgo]
        rw [hres]
        refine ⟨?_, ?_, ?_, ?_⟩
        · constructor
          · intro hb
            rcases ihi.1.mp hb with ⟨k, hk, hkok⟩
            exact ⟨k + 1, by omega, by rw [hadd k]; exact hkok⟩
          · rintro ⟨k, hk, hkok⟩
            cases k with
            | zero => rw [Nat.add_zero] at hkok; exact absurd hkok hok
            | succ k' =>
              refine ihi.1.mpr ⟨k', by omega, ?_⟩
              rw [← hadd k']
              exact hkok
        · intro hb
          have := ihi.2.1 hb
          simp only at this ⊢
          omega
        · intro j d hmem
          rcases ihi.2.2.1 j d hmem with ⟨hd, k, hj, hk, hke⟩
          exact ⟨hd, k + 1, by omega, by omega, by rw [hadd k]; exact hke⟩
        · intro k hk hke hall
          cases k with
          | zero =>
            rw [Nat.add_zero] at hke
            exact absurd hke (by simp [hexc'])
          | succ k' =>
            have hke' : clickAttemptExc (env ((i + 1) + k')) = true := by
              rw [← hadd k']
              exact hke
            have hall' : ∀ j, j ≤ k' → clickAttemptOk (env ((i + 1) + j)) = false := by
              intro j hj
              rw [← hadd j]
              exact hall (j + 1) (by omega)
            have := ihi.2.2.2 k' (by omega) hke' hall'
            rw [← hadd k'] at this
            exact this

theorem gmailFillGo_char (env : Nat → FillAttempt) (value : String) :
    ∀ n i,
      ((gmailFillGo env value i n).1 = true ↔
        ∃ k, k < n ∧ fillAttemptOk value (env (i + k)) = true) ∧
      ((gmailFillGo env value i n).1 = false → (gmailFillGo env value i n).2.1 = n) ∧
      (∀ j d, (j, d) ∈ (gmailFillGo env value i n).2.2 →
        d = 1000 ∧ ∃ k, j = i + k ∧ k + 1 < n ∧ fillAttemptExc (env (i + k)) = true) ∧
      (∀ k, k + 1 < n → fillAttemptExc (env (i + k)) = true →
        (∀ j, j ≤ k → fillAttemptOk value (env (i + j)) = false) →
        (i + k, 1000) ∈ (gmailFillGo env value i n).2.2) := by
  intro n
  induction n with
  | zero =>
    intro i
    refine ⟨by simp [gmailFillGo], by simp [gmailFillGo], by simp [gmailFillGo], ?_⟩
    intro k hk
    omega
  | succ n ih =>
    intro i
    have hadd : ∀ m : Nat, i + (m + 1) = (i + 1) + m := fun m => by omega
    rcases hgo : gmailFillGo env value (i + 1) n with ⟨b, rest⟩
    rcases rest with ⟨c, bs⟩
    have ihi := ih (i + 1)
    rw [hgo] at ihi
    by_cases hok : fillAttemptOk value (env i) = true
    · have hres : gmailFillGo env value i (n + 1) = (true, 1, []) := by
        simp [gmailFillGo, hok]
      rw [hres]
      refine ⟨?_, by simp, by simp, ?_⟩
      · simp only [true_iff]
        exact ⟨0, by omega, by simpa using hok⟩
      · intro k _ _ hall
        have h0 := hall 0 (Nat.zero_le k)
        simp only [Nat.add_zero] at h0
        rw [hok] at h0
        exact absurd h0 (by simp)
    · have hok' : fillAttemptOk value (env i) = false := by
        cases hv : fillAttemptOk value (env i)
        · rfl
        · exact absurd hv hok
      by_cases hexc : fillAttemptExc (env i) = true
      · have hres : gmailFillGo env value i (n + 1) =
            (b, c + 1, if n = 0 then bs else (i, 1000) :: bs) := by
          simp [gmailFillGo, hok', hexc, hgo]
        rw [hres]
        refine ⟨?_, ?_, ?_, ?_⟩
        · constructor
          · intro hb
            rcases ihi.1.mp hb with ⟨k, hk, hkok⟩
            exact ⟨k + 1, by omega, by rw [hadd k]; exact hkok⟩
          · rintro ⟨k, hk, hkok⟩
            cases k with
            | zero => rw [Nat.add_zero] at hkok; exact absurd hkok hok
            | succ k' =>
              refine ihi.1.mpr ⟨k', by omega, ?_⟩
              rw [← hadd k']
              exact hkok
        · intro hb
          have := ihi.2.1 hb
          simp only at this ⊢
          omega
        · intro j d hmem
          by_cases hn : n = 0
          · rw [if_pos hn] at hmem
            rcases ihi.2.2.1 j d hmem with ⟨hd, k, hj, hk, hke⟩
            exact ⟨hd, k + 1, by omega, by omega, by rw [hadd k]; exact hke⟩
          · rw [if_neg hn] at hmem
            rcases List.mem_cons.1 hmem with heq | hmem'
            · have hj : j = i := by
                have := congrArg Prod.fst heq
                simpa using this
              have hd : d = 1000 := by
                have := congrArg Prod.snd heq
                simpa using this
              exact ⟨hd, 0, by omega, by omega, by simpa [Nat.add_zero, hj] using hexc⟩
            · rcases ihi.2.2.1 j d hmem' with ⟨hd, k, hj, hk, hke⟩
              exact ⟨hd, k + 1, by omega, by omega, by rw [hadd k]; exact hke⟩
        · intro k hk hke hall
          have hn : n ≠ 0 := by omega
          rw [if_neg hn]
          cases k with
          | zero =>
            simp only [Nat.add_zero]
            exact List.mem_cons_self _ _
          | succ k' =>
            refine List.mem_cons_of_mem _ ?_
            have hke' : fillAttemptExc (env ((i + 1) + k')) = true := by
              rw [← hadd k']
              exact hke
            have hall' : ∀ j, j ≤ k' → fillAttemptOk value (env ((i + 1) + j)) = false := by
              intro j hj
              rw [← hadd j]
              exact hall (j + 1) (by omega)
            have := ihi.2.2.2 k' (by omega) hke' hall'
            rw [← hadd k'] at this
            exact this
      · have hexc' : fillAttemptExc (env i) = false := by
          cases hv : fillAttemptExc (env i)
          · rfl
          · exact absurd hv hexc
        have hres : gmailFillGo env value i (n + 1) = (b, c + 1, bs) := by
          simp [gmailFillGo, hok', hexc', hgo]
        rw [hres]
        refine ⟨?_, ?_, ?_, ?_⟩
        · constructor
          · intro hb
            rcases ihi.1.mp hb with ⟨k, hk, hkok⟩
            exact ⟨k + 1, by omega, by rw [hadd k]; exact hkok⟩
          · rintro ⟨k, hk, hkok⟩
            cases k with
            | zero => rw [Nat.add_zero] at hkok; exact absurd hkok hok
            | succ k' =>
              refine ihi.1.mpr ⟨k', by omega, ?_⟩
              rw [← hadd k']
              exact hkok
        · intro hb
          have := ihi.2.1 hb
          simp only at this ⊢
          omega
        · intro j d hmem
          rcases ihi.2.2.1 j d hmem with ⟨hd, k, hj, hk, hke⟩
          exact ⟨hd, k + 1, by omega, by omega, by rw [hadd k]; exact hke⟩
        · intro k hk hke hall
          cases k with
          | zero =>
            rw [Nat.add_zero] at hke
            exact absurd hke (by simp [hexc'])
          | succ k' =>
            have hke' : fillAttemptExc (env ((i + 1) + k')) = true := by
              rw [← hadd k']
              exact hke
            have hall' : ∀ j, j ≤ k' → fillAttemptOk value (env ((i + 1) + j)) = false := by
              intro j hj
              rw [← hadd j]
              exact hall (j + 1) (by omega)
            have := ihi.2.2.2 k' (by omega) hke' hall'
            rw [← hadd k'] at this
            exact this

theorem outlookFillGo_noVisible (env : Nat → FillAttempt) (value : String) :
    ∀ n i,
      (∀ k, k < n → fillAttemptVisible (env (i + k)) = false) →
      (outlookFillGo env value i n).1 = false ∧ (outlookFillGo env value i n).2.1 = n := by
  intro n
  induction n with
  | zero => intro i _; simp [outlookFillGo]
  | succ n ih =>
    intro i hvis
    have h0 : fillAttemptVisible (env i) = false := by
      have := hvis 0 (by omega)
      simpa using this
    have ihi := ih (i + 1) (fun k hk => by
      have := hvis (k + 1) (by omega)
      have harr : i + (k + 1) = (i + 1) + k := by omega
      rw [harr] at this
      exact this)
    rcases hgo : outlookFillGo env value (i + 1) n with ⟨b, rest⟩
    rcases rest with ⟨c, bs⟩
    rw [hgo] at ihi
    simp only at ihi
    by_cases hexc : fillAttemptExc (env i) = true
    · have hres : outlookFillGo env value i (n + 1) =
          (b, c + 1, if n = 0 then bs else (i, 1000) :: bs) := by
        simp [outlookFillGo, h0, hexc, hgo]
      rw [hres]
      exact ⟨ihi.1, by simp only; omega⟩
    · have hexc' : fillAttemptExc (env i) = false := by
        cases hv : fillAttemptExc (env i)
        · rfl
        · exact absurd hv hexc
      have hres : outlookFillGo env value i (n + 1) = (b, c + 1, bs) := by
        simp [outlookFillGo, h0, hexc', hgo]
      rw [hres]
      exact ⟨ihi.1, by simp only; omega⟩

theorem outlookFillGo_firstVisible (env : Nat → FillAttempt) (value : String) :
    ∀ n i k, k < n →
      fillAttemptVisible (env (i + k)) = true →
      (∀ j, j < k → fillAttemptVisible (env (i + j)) = false) →
      (outlookFillGo env value i n).1 =
        (tryMethodsTrace value (fillMethodsOf (env (i + k)))).1 ∧
      (outlookFillGo env value i n).2.1 = k + 1 := by
  intro n
  induction n with
  | zero => intro i k hk; omega
  | succ n ih =>
    intro i k hk hvis hje
    cases k with
    | zero =>
      simp only [Nat.add_zero] at hvis
      have hres : outlookFillGo env value i (n + 1) =
          ((tryMethodsTrace value (fillMethodsOf (env i))).1, 1, []) := by
        simp [outlookFillGo, hvis]
      rw [hres]
      simp
    | succ k' =>
      have h0 : fillAttemptVisible (env i) = false := by
        have := hje 0 (by omega)
        simpa using this
      have harr : ∀ m : Nat, i + (m + 1) = (i + 1) + m := fun m => by omega
      have hvis' : fillAttemptVisible (env ((i + 1) + k')) = true := by
        rw [← harr k']
        exact hvis
      have hje' : ∀ j, j < k' → fillAttemptVisible (env ((i + 1) + j)) = false := by
        intro j hj
        rw [← harr j]
        exact hje (j + 1) (by omega)
      have ihi := ih (i + 1) k' (by omega) hvis' hje'
      rw [← harr k'] at ihi
      rcases hgo : outlookFillGo env value (i + 1) n with ⟨b, rest⟩
      rcases rest with ⟨c, bs⟩
      rw [hgo] at ihi
      simp only at ihi
      by_cases hexc : fillAttemptExc (env i) = true
      · have hres : outlookFillGo env value i (n + 1) =
            (b, c + 1, if n = 0 then bs else (i, 1000) :: bs) := by
          simp [outlookFillGo, h0, hexc, hgo]
        rw [hres]
        exact ⟨ihi.1, by simp only; omega⟩
      · have hexc' : fillAttemptExc (env i) = false := by
          cases hv : fillAttemptExc (env i)
          · rfl
          · exact absurd hv hexc
        have hres : outlookFillGo env value i (n + 1) = (b, c + 1, bs) := by
          simp [outlookFillGo, h0, hexc', hgo]
        rw [hres]
        exact ⟨ihi.1, by simp only; omega⟩

theorem outlook_send_email_mock (page : Page) (toAddr subject body : String) :
    outlook_send_email page toAddr subject body = (false, [Ev.mock]) := by
  cases hl : page.launchOk <;> cases hg : page.gotoOk <;> cases hd : page.loadOk <;>
    simp [outlook_send_email, outlook_auto, check_authentication, hl, hg, hd]

/-! ## Helper lemmas: properties of `ai_field_matching` -/

theorem ai_field_matching_mem (dom : List ElementDescriptor) (field_type : String) :
    ∀ p ∈ ai_field_matching dom field_type,
      p ∈ scan_candidates dom field_type ∧ p.2 = ai_score field_type p.1 ∧ 0 < p.2 := by
  intro p hp
  have hp1 : p ∈ sortScoreDesc (scan_candidates dom field_type) :=
    (List.take_sublist 3 _).subset hp
  have hp2 : p ∈ scan_candidates dom field_type :=
    (sortScoreDesc_perm _).mem_iff.mp hp1
  refine ⟨hp2, ?_, ?_⟩
  · rcases List.mem_filter.mp hp2 with ⟨hmap, _⟩
    rcases List.mem_map.mp hmap with ⟨e, _, heq⟩
    rw [← heq]
  · rcases List.mem_filter.mp hp2 with ⟨_, hpos⟩
    simpa using hpos

theorem ai_field_matching_pairwise (dom : List ElementDescriptor) (field_type : String) :
    (ai_field_matching dom field_type).Pairwise (fun a b => b.2 ≤ a.2) :=
  (sortScoreDesc_pairwise _).sublist (List.take_sublist 3 _)

theorem ai_field_matching_stable (dom : List ElementDescriptor) (field_type : String) :
    ∀ c, ∃ rest,
      (scan_candidates dom field_type).filter (fun p => p.2 == c) =
        (ai_field_matching dom field_type).filter (fun p => p.2 == c) ++ rest := by
  intro c
  refine ⟨((sortScoreDesc (scan_candidates dom field_type)).drop 3).filter
    (fun p => p.2 == c), ?_⟩
  rw [← sortScoreDesc_filter (scan_candidates dom field_type) c]
  conv_lhs =>
    rw [← List.take_append_drop 3 (sortScoreDesc (scan_candidates dom field_type))]
  rw [List.filter_append]
  rfl

theorem ai_field_matching_length (dom : List ElementDescriptor) (field_type : String) :
    (ai_field_matching dom field_type).length = min 3 (scan_candidates dom field_type).length := by
  rw [ai_field_matching, List.length_take, (sortScoreDesc_perm _).length_eq]

/-! ## Claim theorems -/

/-- C3 counterexample: the captured snapshot includes `div[role="button"]`
elements (which are not content-editable), and `_ai_field_matching` gives
the Body structural bonus to every `div`.  The button-role div `dBtn`
with visible text "message" scores 1 (keyword) + 2 (bonus) = 3 in the
code, while the claim's rule (bonus only for textarea/content-editable)
yields 1. -/
theorem C3_counterexample :
    ai_score "body" dBtn = 3 ∧ ai_score_claimed "body" dBtn false = 1 ∧ (3 : Nat) ≠ 1 :=
  ⟨by decide, by decide, by decide⟩

/-- C3 (amended): for every captured batch and role, each descriptor
scores +1 per role keyword occurring case-insensitively in the
concatenation of its ARIA label, placeholder, text, id and class list,
plus a +2 structural bonus — for Body the bonus goes to textareas and to
*every* div (the snapshot does not record contenteditable, so button-role
divs receive it too); score-0 descriptors are discarded, the rest are
sorted by score descending with ties keeping scan order, and at most the
top 3 are retained. -/
theorem C3_heuristic_scorer_amended (dom : List ElementDescriptor) (field_type : String) :
    (∀ e, type_bonus field_type e = type_bonus_claimed field_type e (e.tag == "div")) ∧
    (∀ e, ai_score field_type e =
      (field_keywords field_type).countP (fun kw => pyIn kw (all_text e)) +
        type_bonus field_type e) ∧
    (∀ p ∈ ai_field_matching dom field_type,
      p ∈ scan_candidates dom field_type ∧ p.2 = ai_score field_type p.1 ∧ 0 < p.2) ∧
    (ai_field_matching dom field_type).Pairwise (fun a b => b.2 ≤ a.2) ∧
    (∀ c, ∃ rest,
      (scan_candidates dom field_type).filter (fun p => p.2 == c) =
        (ai_field_matching dom field_type).filter (fun p => p.2 == c) ++ rest) ∧
    (ai_field_matching dom field_type).length =
      min 3 (scan_candidates dom field_type).length := by
  refine ⟨?_, fun e => rfl, ai_field_matching_mem dom field_type,
    ai_field_matching_pairwise dom field_type, ai_field_matching_stable dom field_type,
    ai_field_matching_length dom field_type⟩
  intro e
  simp [type_bonus, type_bonus_claimed]

/-- C8: the heuristic scorer is deterministic and pure — the same
descriptor batch and role always produce the same scores and the same
top-3 ranking, the ranking is sorted by score descending, and tied
descriptors keep their original scan order (the candidates of any score
`c` appear in the output as an initial segment of the scan-order list of
score-`c` candidates). -/
theorem C8_scorer_deterministic (dom : List ElementDescriptor) (field_type : String) :
    (∀ e, ai_score field_type e = ai_score field_type e) ∧
    ai_field_matching dom field_type = ai_field_matching dom field_type ∧
    (ai_field_matching dom field_type).Pairwise (fun a b => b.2 ≤ a.2) ∧
    (∀ c, ∃ rest,
      (scan_candidates dom field_type).filter (fun p => p.2 == c) =
        (ai_field_matching dom field_type).filter (fun p => p.2 == c) ++ rest) :=
  ⟨fun _ => rfl, rfl, ai_field_matching_pairwise dom field_type,
    ai_field_matching_stable dom field_type⟩

/-- C1: a `find_email_field` call attempts the four strategy tiers in the
fixed order service-specific → semantic → heuristic → visual; it returns
the selector produced by the first tier that yields a visible match
(never running a later tier), and returns `none` exactly when all four
tiers fail. -/
theorem C1_waterfall_order (page : Page) (field_type service : String) :
    find_email_field page field_type service =
      (firstHit (tierOutcomes page field_type service)).1 ∧
    find_email_field_tiers page field_type service =
      tierOrder.take (firstHit (tierOutcomes page field_type service)).2 ∧
    (find_email_field page field_type service = none ↔
      ∀ o ∈ tierOutcomes page field_type service, o = none) := by
  cases h1 : try_service_specific_selectors page field_type service <;>
  cases h2 : try_semantic_selectors page field_type <;>
  cases h3 : try_ai_dom_analysis page field_type <;>
  cases h4 : try_visual_detection page field_type <;>
    simp [find_email_field, find_email_field_tiers, tierOutcomes, tierOrder, firstHit,
      h1, h2, h3, h4]

/-- C2: the authentication gate reports a login wall exactly when some
per-service indicator resolves to a visible element within its 2000 ms
probe; when the Gmail gate reports the wall, the session's trace contains
no resolution-tier event (the waterfall is never entered); the Outlook
session never produces a resolution-tier event at all (it dies at its
authentication step). -/
theorem C2_auth_gate_short_circuit :
    (∀ (page : Page) (service : String),
      handle_authentication_challenge page service = false ↔
        ∃ ind ∈ auth_indicators service, (probe page 2000 ind).isSome = true) ∧
    (∀ (page : Page) (a s b : String),
      handle_authentication_challenge page "gmail" = false →
        ((gmail_send_email page a s b).2.all (fun e => !isTierEv e)) = true) ∧
    (∀ (page : Page) (a s b : String),
      ((outlook_send_email page a s b).2.all (fun e => !isTierEv e)) = true) := by
  refine ⟨?_, ?_, ?_⟩
  · intro page service
    cases hf : (auth_indicators service).findSome? (probe page 2000) with
    | none =>
      have hall := List.findSome?_eq_none_iff.mp hf
      simp only [handle_authentication_challenge, hf]
      constructor
      · intro h
        exact absurd h (by simp)
      · rintro ⟨ind, hmem, hs⟩
        rw [hall ind hmem] at hs
        simp at hs
    | some s =>
      rcases List.exists_of_findSome?_eq_some hf with ⟨ind, hmem, hsome⟩
      simp only [handle_authentication_challenge, hf]
      constructor
      · intro _
        exact ⟨ind, hmem, by simp [hsome]⟩
      · intro _
        trivial
  · intro page a s b h
    cases hl : page.launchOk <;> cases hg : page.gotoOk <;> cases hd : page.loadOk <;>
      simp [gmail_send_email, hl, hg, hd, h, isTierEv]
  · intro page a s b
    rw [outlook_send_email_mock page a s b]
    simp [isTierEv]

/-- Witness for C2: a concrete page whose `input[type="email"]` indicator
is visible — the gate reports the wall and the Gmail session's trace has
no resolution-tier event. -/
theorem C2_witness :
    handle_authentication_challenge pgAuth "gmail" = false ∧
    ((gmail_send_email pgAuth "a@b.c" "hi" "text").2.all (fun e => !isTierEv e)) = true :=
  ⟨by decide, C2_auth_gate_short_circuit.2.1 pgAuth "a@b.c" "hi" "text" (by decide)⟩

/-- C4: on a visible element, one fill attempt tries the write methods in
the fixed order `element.fill` → `element.type` → in-page `.value` write
and succeeds exactly when some method's read-back passes the loose
substring-either-direction check; the number of methods tried is the
position of the first passing method (or all three); and the loose check
never fails for an empty written value. -/
theorem C4_fill_verification (m1 m2 m3 : Option String) (value : String) :
    fillAttemptOk value ⟨some ⟨false, true⟩, m1, m2, m3⟩ =
      [m1, m2, m3].any (methodPasses value) ∧
    (tryMethodsTrace value [m1, m2, m3]).2 =
      min ([m1, m2, m3].findIdx (methodPasses value) + 1) 3 ∧
    (∀ readback, looseCheck "" readback = true) := by
  refine ⟨?_, ?_, looseCheck_empty⟩
  · show (!false && (true && (tryMethodsTrace value (fillMethodsOf _)).1)) = _
    simp only [Bool.not_false, Bool.true_and]
    exact (tryMethodsTrace_spec value [m1, m2, m3]).1
  · have h := (tryMethodsTrace_spec value [m1, m2, m3]).2
    simpa using h

/-- Helper: the Gmail `send_email` return value is decided solely by
whether launch, navigation and the load wait raise. -/
theorem gmail_send_email_result (page : Page) (a s b : String) :
    (gmail_send_email page a s b).1 = (page.launchOk && page.gotoOk && page.loadOk) := by
  cases hl : page.launchOk <;> cases hg : page.gotoOk <;> cases hd : page.loadOk <;>
    simp [gmail_send_email, hl, hg, hd]
  by_cases ha : handle_authentication_challenge page "gmail" = false
  · simp [ha]
  · simp only [if_neg ha]
    cases hf : find_email_field page "compose" "gmail" with
    | none => simp
    | some sel =>
      by_cases hc : (click_with_retry (page.clickEnv sel) 3).1 = false
      · simp [hc]
      · simp [hc]

/-- C5 counterexample: an Outlook fill whose first attempt finds the
element visible but whose write methods all fail reports failure after a
single attempt, not after `maxRetries = 3` attempts. -/
theorem C5_counterexample :
    (outlook_fill_field_with_retry fenvTerm "v" 3).1 = false ∧
    (outlook_fill_field_with_retry fenvTerm "v" 3).2.1 = 1 ∧ (1 : Nat) ≠ 3 :=
  ⟨by decide, by decide, by decide⟩

/-- C5 (amended): for clicks and Gmail fills, failure is reported iff all
`maxRetries` attempts were made and unsuccessful (and on failure exactly
`maxRetries` attempts were made), every backoff taken is the fixed
1000 ms, follows an attempt that raised, and never follows the final
attempt; the Outlook fill instead terminates at the first attempt that
finds the element visible, reporting that attempt's verification outcome
(so failure after fewer than `maxRetries` attempts when verification
fails), and consumes all `maxRetries` attempts only when no attempt found
a visible element. -/
theorem C5_retry_bound_amended (cenv : Nat → ClickAttempt) (fenv : Nat → FillAttempt)
    (value : String) (maxRetries : Nat) :
    ((click_with_retry cenv maxRetries).1 = false ↔
      ∀ k, k < maxRetries → clickAttemptOk (cenv k) = false) ∧
    ((click_with_retry cenv maxRetries).1 = false →
      (click_with_retry cenv maxRetries).2.1 = maxRetries) ∧
    (∀ j d, (j, d) ∈ (click_with_retry cenv maxRetries).2.2 →
      d = 1000 ∧ j + 1 < maxRetries ∧ clickAttemptExc (cenv j) = true) ∧
    ((gmail_fill_field_with_retry fenv value maxRetries).1 = false ↔
      ∀ k, k < maxRetries → fillAttemptOk value (fenv k) = false) ∧
    ((gmail_fill_field_with_retry fenv value maxRetries).1 = false →
      (gmail_fill_field_with_retry fenv value maxRetries).2.1 = maxRetries) ∧
    (∀ j d, (j, d) ∈ (gmail_fill_field_with_retry fenv value maxRetries).2.2 →
      d = 1000 ∧ j + 1 < maxRetries ∧ fillAttemptExc (fenv j) = true) ∧
    ((∀ k, k < maxRetries → fillAttemptVisible (fenv k) = false) →
      (outlook_fill_field_with_retry fenv value maxRetries).1 = false ∧
      (outlook_fill_field_with_retry fenv value maxRetries).2.1 = maxRetries) ∧
    (∀ k, k < maxRetries → fillAttemptVisible (fenv k) = true →
      (∀ j, j < k → fillAttemptVisible (fenv j) = false) →
      (outlook_fill_field_with_retry fenv value maxRetries).1 =
        (tryMethodsTrace value (fillMethodsOf (fenv k))).1 ∧
      (outlook_fill_field_with_retry fenv value maxRetries).2.1 = k + 1) := by
  have hc := clickGo_char cenv maxRetries 0
  simp only [Nat.zero_add] at hc
  have hg := gmailFillGo_char fenv value maxRetries 0
  simp only [Nat.zero_add] at hg
  simp only [click_with_retry, gmail_fill_field_with_retry, outlook_fill_field_with_retry]
  refine ⟨?_, hc.2.1, ?_, ?_, hg.2.1, ?_, ?_, ?_⟩
  · constructor
    · intro hfalse k hk
      cases hv : clickAttemptOk (cenv k) with
      | false => rfl
      | true =>
        have := hc.1.mpr ⟨k, hk, hv⟩
        rw [hfalse] at this
        exact absurd this (by simp)
    · intro hall
      cases hv : (clickGo cenv 0 maxRetries).1 with
      | false => rfl
      | true =>
        rcases hc.1.mp hv with ⟨k, hk, hkok⟩
        rw [hall k hk] at hkok
        exact absurd hkok (by simp)
  · intro j d hmem
    rcases hc.2.2.1 j d hmem with ⟨hd, k, hj, hk, hke⟩
    subst hj
    exact ⟨hd, hk, hke⟩
  · constructor
    · intro hfalse k hk
      cases hv : fillAttemptOk value (fenv k) with
      | false => rfl
      | true =>
        have := hg.1.mpr ⟨k, hk, hv⟩
        rw [hfalse] at this
        exact absurd this (by simp)
    · intro hall
      cases hv : (gmailFillGo fenv value 0 maxRetries).1 with
      | false => rfl
      | true =>
        rcases hg.1.mp hv with ⟨k, hk, hkok⟩
        rw [hall k hk] at hkok
        exact absurd hkok (by simp)
  · intro j d hmem
    rcases hg.2.2.1 j d hmem with ⟨hd, k, hj, hk, hke⟩
    subst hj
    exact ⟨hd, hk, hke⟩
  · intro hall
    have h := outlookFillGo_noVisible fenv value maxRetries 0 (fun k hk => by
      simpa using hall k hk)
    exact h
  · intro k hk hvis hje
    have h := outlookFillGo_firstVisible fenv value maxRetries 0 k hk
      (by simpa using hvis) (fun j hj => by simpa using hje j hj)
    simpa using h

/-- Witness for C5: a concrete Outlook fill environment whose first
attempt raises and whose second finds the element visible with a passing
direct write terminates successfully after 2 of the 3 attempts. -/
theorem C5_witness :
    fillAttemptVisible (fenvWit 1) = true ∧
    (outlook_fill_field_with_retry fenvWit "val" 3).1 = true ∧
    (outlook_fill_field_with_retry fenvWit "val" 3).2.1 = 2 := by
  have h := (C5_retry_bound_amended (fun _ => ⟨none, false⟩) fenvWit "val" 3).2.2.2.2.2.2.2
    1 (by omega) (by decide) (fun j hj => by
      have hj0 : j = 0 := by omega
      subst hj0
      decide)
  refine ⟨by decide, ?_, ?_⟩
  · rw [h.1]
    decide
  · rw [h.2]

/-- C6 counterexample: on the login-walled page `pgAuth`, the Gmail
`send_email` reports success (`True`) although the compose element was
never resolved and no field was filled (the trace has no click or fill
event). -/
theorem C6_counterexample :
    (gmail_send_email pgAuth "a@b.c" "s" "b").1 = true ∧
    ((gmail_send_email pgAuth "a@b.c" "s" "b").2.all (fun e => !isFillOrClickEv e)) = true :=
  ⟨by decide, by decide⟩

/-- C6 (amended): the value returned by `send_email` reports only whether
the run escaped its top-level exception handler, not whether fields were
filled: Gmail returns `True` exactly when browser launch, navigation and
the load wait succeed — including demo-mode fallback runs in which
nothing was resolved or filled — and Outlook always returns `False`. -/
theorem C6_success_report_amended (page : Page) (a s b : String) :
    (gmail_send_email page a s b).1 = (page.launchOk && page.gotoOk && page.loadOk) ∧
    (outlook_send_email page a s b).1 = false := by
  refine ⟨gmail_send_email_result page a s b, ?_⟩
  rw [outlook_send_email_mock page a s b]

/-- C7 counterexample: for a nested descendant with no id, ARIA label or
placeholder but a non-empty class list, `_get_element_selector` returns
the dot-joined class selector, while the claim's preference order
(identifier → ARIA label → placeholder → tag name) would return the
lowercased tag name. -/
theorem C7_counterexample :
    get_element_selector neCls = some ".boX.input2" ∧
    get_element_selector_claimed neCls = some "input" ∧
    (some ".boX.input2" : Option String) ≠ some "input" :=
  ⟨by decide, by decide, by decide⟩

/-- C7 (amended): for the Recipient/Subject/Body roles the visual tier
searches the text-matched visible element for a nested
input/textarea/content-editable descendant and synthesizes that
descendant's locator in the fixed preference order identifier → ARIA
label → placeholder → class list (dot-joined) → tag name; an exception
raised during any single pattern's probe is swallowed and the loop
continues with the next pattern. -/
theorem C7_visual_selector_amended :
    (∀ ne, get_element_selector ne = get_element_selector_amended ne) ∧
    (∀ (page : Page) (field_type pattern : String) (rest : List String),
      page.visualProbe (":has-text(" ++ pattern ++ ")") = none →
      visualLoop page field_type (pattern :: rest) = visualLoop page field_type rest) ∧
    (∀ (field_type sel : String) (el : VElem) (ne : NElem) (rest : List VElem)
        (s : String),
      (field_type = "to" ∨ field_type = "subject" ∨ field_type = "body") →
      el.visThrows = false → el.visible = true → el.nestedThrows = false →
      el.nested = some ne → get_element_selector ne = some s →
      scanElements field_type sel (el :: rest) = some s) := by
  refine ⟨fun ne => rfl, ?_, ?_⟩
  · intro page field_type pattern rest h
    simp [visualLoop, h]
  · intro field_type sel el ne rest s hft hvt hv hnt hn hs
    have hne : ¬(field_type = "compose" ∨ field_type = "send") := by
      rcases hft with h | h | h <;> subst h <;> decide
    simp [scanElements, hvt, hv, hne, hnt, hn, hs]

/-- Witness for C7: a concrete visible match whose nested descendant has
an id — the visual tier synthesizes `#idX` for it. -/
theorem C7_witness :
    scanElements "to" ":has-text(\"To:\")" [elWit] = some "#idX" :=
  C7_visual_selector_amended.2.2 "to" ":has-text(\"To:\")" elWit neWit [] "#idX"
    (Or.inl rfl) (by decide) (by decide) (by decide) (by decide) (by decide)

/-- C9 counterexample: two successive `/send-email` requests through the
module-global agent: the second request's observed log contains the first
session's entry, so the state one session observes is affected by the
earlier session. -/
theorem C9_counterexample :
    (handle_request (handle_request none "first").2 "second").1 =
      ["Received instruction: first", "Received instruction: second"] ∧
    (handle_request (handle_request none "first").2 "second").1 ≠
      ["Received instruction: second"] :=
  ⟨by decide, by decide⟩

/-- C9 (amended): candidate and score data inside a resolution call is
call-local, but the step log is shared mutable state: the API server
reuses one global `CrossPlatformAgent` whose single `StepLogger`
accumulates across sessions, so a request served with prior log state
`steps` observes `steps` followed by its own entries, and the agent (and
its log) is carried over, not recreated, between requests. -/
theorem C9_shared_log_amended (steps : List String) (instruction : String) :
    (handle_request (some steps) instruction).1 =
      steps ++ ["Received instruction: " ++ instruction] ∧
    (handle_request (some steps) instruction).2 =
      some (steps ++ ["Received instruction: " ++ instruction]) ∧
    (get_agent (some steps)).1 = steps ∧
    get_agent none = ([], some []) :=
  ⟨rfl, rfl, rfl, rfl⟩

/-- C10: every `OutlookProvider.send_email` call that survives browser
launch and navigation raises `AttributeError` at the
`_check_authentication` step (the handler class defines no such method),
so the demo-mode fallback is always taken, the automation path after the
authentication check is unreachable, and the call returns `False`. -/
theorem C10_outlook_always_fails (page : Page) (a s b : String) :
    outlook_send_email page a s b = (false, [Ev.mock]) ∧
    ((page.launchOk && page.gotoOk && page.loadOk) = true →
      (outlook_auto page a s b).1 = Except.error PyExc.attributeError) := by
  refine ⟨outlook_send_email_mock page a s b, ?_⟩
  intro h
  simp only [Bool.and_eq_true] at h
  simp [outlook_auto, check_authentication, h.1.1, h.1.2, h.2]

/-- Witness for C10 at a concrete page whose launch, navigation and load
succeed. -/
theorem C10_witness :
    (pgAuth.launchOk && pgAuth.gotoOk && pgAuth.loadOk) = true ∧
    (outlook_auto pgAuth "a@b.c" "s" "b").1 = Except.error PyExc.attributeError :=
  ⟨by decide, (C10_outlook_always_fails pgAuth "a@b.c" "s" "b").2 (by decide)⟩

/-- Witness for C1 at a concrete page and role. -/
theorem C1_witness :
    find_email_field pgAuth "to" "gmail" = (firstHit (tierOutcomes pgAuth "to" "gmail")).1 :=
  (C1_waterfall_order pgAuth "to" "gmail").1

/-- Witness for C3 at a concrete one-element batch: the retained
candidate carries its own score, which is positive. -/
theorem C3_witness :
    (dBtn, 3) ∈ scan_candidates [dBtn] "body" ∧ 3 = ai_score "body" dBtn ∧ 0 < 3 :=
  (C3_heuristic_scorer_amended [dBtn] "body").2.2.1 (dBtn, 3) (by decide)

end EmailAgent
